import Mathlib

/-!
Verification of the monthly KPI tracker (src/App.js) against its
natural-language specification.  The JavaScript functions are shallowly
embedded as Lean definitions: JS numbers become `ℚ` (with `Math.round`
modelled as `⌊x + 1/2⌋`, which is JS round-half-toward-positive-infinity),
JS strings become `String`, absent values become `Option`, and the JSON
values handled by `JSON.parse`/`JSON.stringify` become an inductive `Json`
tree (the parser/printer pair is modelled at the level of the value tree;
a `JSON.parse` failure is the `none` case of an `Option Json` input).
-/

/-! ### The five KPI metrics and per-metric maps -/

/-- The five metric keys, in the display/iteration order of `KPI_LABELS`
(`Object.keys(KPI_LABELS)` in `src/App.js`). -/
inductive Metric where
  | connects
  | geoData
  | buyerAppointments
  | marketAppraisals
  | listingsGenerated
deriving DecidableEq, Repr

/-- A mapping `Metric → number`, as used for both a `TargetSet` and an
associate's `metrics` object (all five keys present). -/
structure KpiMap where
  connects : ℚ
  geoData : ℚ
  buyerAppointments : ℚ
  marketAppraisals : ℚ
  listingsGenerated : ℚ
deriving DecidableEq, Repr

/-- Look up one metric in a `KpiMap`. -/
def KpiMap.get (m : KpiMap) : Metric → ℚ
  | .connects => m.connects
  | .geoData => m.geoData
  | .buyerAppointments => m.buyerAppointments
  | .marketAppraisals => m.marketAppraisals
  | .listingsGenerated => m.listingsGenerated

/-- `Object.keys(KPI_LABELS)` from the source, in declaration order. -/
def metricKeys : List Metric :=
  [.connects, .geoData, .buyerAppointments, .marketAppraisals, .listingsGenerated]

/-- `DEFAULT_TARGETS` from `src/App.js`. -/
def defaultTargets : KpiMap :=
  { connects := 800, geoData := 50, buyerAppointments := 20
    marketAppraisals := 25, listingsGenerated := 1 }

/-- An associate (`{ id, name, metrics }`) with a fully populated metrics
object, as created by `addAssociate`. -/
structure Associate where
  id : String
  name : String
  metrics : KpiMap
deriving DecidableEq, Repr

/-! ### `pct` (the `percentOf` aggregation helper) -/

/-- JS `Math.round`: round half toward positive infinity. -/
def jsRound (q : ℚ) : ℤ := ⌊q + 1 / 2⌋

/-- `function pct(n, d) { if (!d || d === 0) return 0;
return Math.min(100, Math.round((n / d) * 100)); }` from `src/App.js`.
The second argument is an `Option`: `none` models an absent (`undefined`)
denominator, which is falsy just as `0` is. -/
def pct (n : ℚ) (d : Option ℚ) : ℚ :=
  match d with
  | none => 0
  | some q => if q = 0 then 0 else ((min 100 (jsRound (n / q * 100)) : ℤ) : ℚ)

/-! ### CSV export (`toCSV`, `buildCSVFromAssociates`) -/

/-- JS `String.replaceAll('"', '""')` at the character level: every double
quote is doubled (a one-character search pattern cannot overlap, so
`replaceAll` acts independently on each character). -/
def doubleQuotesOf (cs : List Char) : List Char :=
  cs.foldr (fun c acc => if c = '"' then '"' :: '"' :: acc else c :: acc) []

/-- The field escaper from `toCSV` in `src/App.js`:
`(v) => "\"" + String(v).replaceAll('"', '""') + "\""`. -/
def escape (v : String) : String :=
  "\"" ++ (doubleQuotesOf v.data).asString ++ "\""

/-- `toCSV(rows)` from `src/App.js`.  A row is an ordered list of
key/value pairs (a JS object with string values after `String(...)`);
headers are the keys of the first row, and each cell is `r[h] ?? ''`
escaped. -/
def toCSV (rows : List (List (String × String))) : String :=
  match rows with
  | [] => ""
  | r0 :: _ =>
    let headers := r0.map Prod.fst
    String.intercalate "\n"
      (String.intercalate "," headers ::
        rows.map (fun r =>
          String.intercalate "," (headers.map (fun h => escape ((List.lookup h r).getD "")))))

/-- An associate as consumed by `buildCSVFromAssociates`: the `metrics`
object may lack keys (`a.metrics.connects || 0` substitutes `0`), and the
values that occur are natural numbers, stringified in decimal by
`String(...)`. -/
structure CsvAssociate where
  name : String
  connects : Option ℕ
  geoData : Option ℕ
  buyerAppointments : Option ℕ
  marketAppraisals : Option ℕ
  listingsGenerated : Option ℕ
deriving DecidableEq, Repr

/-- The row object built by `buildCSVFromAssociates` for one associate
(keys in insertion order, values stringified). -/
def csvRow (a : CsvAssociate) : List (String × String) :=
  [("Name", a.name),
   ("Connects", Nat.repr (a.connects.getD 0)),
   ("GeoData", Nat.repr (a.geoData.getD 0)),
   ("BuyerAppointments", Nat.repr (a.buyerAppointments.getD 0)),
   ("MarketAppraisals", Nat.repr (a.marketAppraisals.getD 0)),
   ("ListingsGenerated", Nat.repr (a.listingsGenerated.getD 0))]

/-- `buildCSVFromAssociates(associates)` from `src/App.js`. -/
def buildCSVFromAssociates (associates : List CsvAssociate) : String :=
  toCSV (associates.map csvRow)

/-! ### `teamTargets` -/

/-- The `teamTargets` memo from `src/App.js`:
`count = Math.max(1, associates.length || 1)` and each per-person target is
multiplied by `count` (`(Number(targets[k]) || 0) * count`). -/
def teamTargets (targets : KpiMap) (headcount : ℕ) : KpiMap :=
  let count : ℕ := max 1 (if headcount = 0 then 1 else headcount)
  { connects := targets.connects * count
    geoData := targets.geoData * count
    buyerAppointments := targets.buyerAppointments * count
    marketAppraisals := targets.marketAppraisals * count
    listingsGenerated := targets.listingsGenerated * count }

/-! ### Theorems for claims C1, C4, C7, C8 -/

/-- C1 (amended): `pct` returns `0` when the target is absent or `0`, and
otherwise returns `min(100, round(100·n/d))` — clamped above at `100` but
not below at `0`; the value lies in `[0, 100]` whenever the numerator is
non-negative and the target positive, and equals `100` whenever the
numerator reaches the target. -/
theorem pct_spec :
    (∀ n : ℚ, pct n none = 0) ∧
    (∀ n : ℚ, pct n (some 0) = 0) ∧
    (∀ n q : ℚ, q ≠ 0 → pct n (some q) = ((min 100 (jsRound (n / q * 100)) : ℤ) : ℚ)) ∧
    (∀ n q : ℚ, 0 ≤ n → 0 < q → 0 ≤ pct n (some q) ∧ pct n (some q) ≤ 100) ∧
    (∀ n q : ℚ, 0 < q → q ≤ n → pct n (some q) = 100) := by
  refine ⟨fun n => rfl, fun n => by simp [pct], fun n q hq => by simp [pct, hq], ?_, ?_⟩
  · intro n q hn hq
    have hq' : q ≠ 0 := ne_of_gt hq
    have hx : (0 : ℚ) ≤ n / q * 100 := by positivity
    have hfloor : (0 : ℤ) ≤ jsRound (n / q * 100) := by
      rw [jsRound, Int.le_floor]
      push_cast
      linarith
    constructor
    · simp only [pct, hq', if_false]
      have : (0 : ℤ) ≤ min 100 (jsRound (n / q * 100)) := le_min (by norm_num) hfloor
      exact_mod_cast this
    · simp only [pct, hq', if_false]
      have : min 100 (jsRound (n / q * 100)) ≤ 100 := min_le_left _ _
      exact_mod_cast this
  · intro n q hq hn
    have hq' : q ≠ 0 := ne_of_gt hq
    have h1 : (1 : ℚ) ≤ n / q := (one_le_div hq).mpr hn
    have hx : (100 : ℚ) ≤ n / q * 100 := by linarith
    have hfloor : (100 : ℤ) ≤ jsRound (n / q * 100) := by
      rw [jsRound, Int.le_floor]
      push_cast
      linarith
    simp only [pct, hq', if_false, min_eq_left hfloor]
    norm_num

/-- Witness for `pct_spec` at concrete inputs. -/
theorem pct_spec_witness :
    pct 50 (some 100) = 50 ∧ pct 120 (some 100) = 100 ∧ pct 5 (some 0) = 0 := by
  have h := pct_spec
  refine ⟨?_, ?_, h.2.1 5⟩
  · have := h.2.2.1 50 100 (by norm_num)
    rw [this]
    norm_num [jsRound]
  · exact h.2.2.2.2 120 100 (by norm_num) (by norm_num)

/-- C1 counterexample: for a negative numerator the result is not clamped
to `[0, 100]` — `pct (-50) 100` evaluates to `-50`, not `0`. -/
theorem pct_not_clamped_below :
    pct (-50) (some 100) = -50 ∧ pct (-50) (some 100) < 0 := by
  constructor <;> norm_num [pct, jsRound]

/-- C4: `teamTargets` multiplies every per-person target by
`max 1 headcount`; in particular a headcount of `0` leaves the targets
unscaled rather than zeroing them. -/
theorem teamTargets_spec :
    (∀ (t : KpiMap) (hc : ℕ) (k : Metric),
      (teamTargets t hc).get k = t.get k * (max 1 hc : ℕ)) ∧
    (∀ (t : KpiMap) (k : Metric), (teamTargets t 0).get k = t.get k) := by
  have key : ∀ (t : KpiMap) (hc : ℕ) (k : Metric),
      (teamTargets t hc).get k = t.get k * (max 1 hc : ℕ) := by
    intro t hc k
    have hcount : max 1 (if hc = 0 then 1 else hc) = max 1 hc := by
      rcases Nat.eq_zero_or_pos hc with h | h
      · simp [h]
      · simp [Nat.pos_iff_ne_zero.mp h]
    cases k <;> simp [teamTargets, KpiMap.get, hcount]
  refine ⟨key, fun t k => ?_⟩
  rw [key t 0 k]
  norm_num

/-- C7: the CSV built from a non-empty associate list starts with the
verbatim (unquoted) header row, and every data field is wrapped in double
quotes with embedded quotes doubled, absent metrics rendered as `0`;
`a, b` escapes to `"a, b"` and `"q"` escapes to `"""q"""`. -/
theorem csv_escaping_spec :
    (∀ (a : CsvAssociate) (rest : List CsvAssociate),
      buildCSVFromAssociates (a :: rest) =
        String.intercalate "\n"
          ("Name,Connects,GeoData,BuyerAppointments,MarketAppraisals,ListingsGenerated" ::
            (a :: rest).map (fun x =>
              String.intercalate ","
                [escape x.name,
                 escape (Nat.repr (x.connects.getD 0)),
                 escape (Nat.repr (x.geoData.getD 0)),
                 escape (Nat.repr (x.buyerAppointments.getD 0)),
                 escape (Nat.repr (x.marketAppraisals.getD 0)),
                 escape (Nat.repr (x.listingsGenerated.getD 0))]))) ∧
    escape "a, b" = "\"a, b\"" ∧
    escape "\"q\"" = "\"\"\"q\"\"\"" ∧
    (∀ v : String, ∃ mid : String, escape v = "\"" ++ mid ++ "\"") := by
  refine ⟨?_, by decide, by decide, fun v => ⟨(doubleQuotesOf v.data).asString, rfl⟩⟩
  intro a rest
  unfold buildCSVFromAssociates toCSV
  simp only [List.map_cons, List.map_map]
  rfl

/-- C8: the CSV of the empty associate list is the empty string, with no
header row. -/
theorem csv_empty : buildCSVFromAssociates [] = "" ∧ toCSV [] = "" :=
  ⟨rfl, rfl⟩

/-! ### The background daily-email task (`TaskManager.defineTask`) -/

/-- The `expo-background-fetch` result values returned by the task. -/
inductive BgResult where
  | newData
  | noData
  | failed
deriving DecidableEq, Repr

/-- What one run of the background task did: whether the summary text and
CSV were built, whether a webhook POST was issued, and the returned
result. -/
structure BgOutcome where
  built : Bool
  dispatched : Bool
  result : BgResult
deriving DecidableEq, Repr

/-- The body of `TaskManager.defineTask(TASK_NAME, ...)` from `src/App.js`,
abstracted over its environment reads: the configured send hour, the
current local clock (`now.getHours()`, `now.getMinutes()`), the stored
webhook URL (`none` when unset), and whether the webhook POST would return
an OK response.  The task computes
`withinWindow = |minutesNow - sendHour*60| ≤ 30` and returns `NoData`
outside the window; inside it, it builds the summary and CSV, then POSTs
them when a webhook is configured (`NewData` on OK, `Failed` otherwise)
and returns `NoData` without dispatching when none is. -/
def dailyEmailTask (sendHour : ℤ) (nowH nowM : ℕ) (webhook : Option String)
    (fetchOk : Bool) : BgOutcome :=
  let minutesNow : ℤ := nowH * 60 + nowM
  let minutesTarget : ℤ := sendHour * 60
  if ¬(|minutesNow - minutesTarget| ≤ 30) then
    { built := false, dispatched := false, result := .noData }
  else
    match webhook with
    | some _ => { built := true, dispatched := true
                  result := if fetchOk then .newData else .failed }
    | none => { built := true, dispatched := false, result := .noData }

/-- C6 (amended): the task builds the summary exactly when
`|minutesNow − 60·sendHour| ≤ 30` (a same-day window with no midnight
wraparound), dispatches it exactly when additionally a webhook URL is
configured, and in every non-dispatching case returns the no-op `NoData`
result rather than a failure. -/
theorem dailyEmailTask_spec :
    ∀ (sendHour : ℤ) (nowH nowM : ℕ) (webhook : Option String) (fetchOk : Bool),
      ((dailyEmailTask sendHour nowH nowM webhook fetchOk).built = true ↔
        |(nowH * 60 + nowM : ℤ) - sendHour * 60| ≤ 30) ∧
      ((dailyEmailTask sendHour nowH nowM webhook fetchOk).dispatched = true ↔
        (|(nowH * 60 + nowM : ℤ) - sendHour * 60| ≤ 30 ∧ webhook ≠ none)) ∧
      (¬(|(nowH * 60 + nowM : ℤ) - sendHour * 60| ≤ 30) →
        dailyEmailTask sendHour nowH nowM webhook fetchOk =
          { built := false, dispatched := false, result := .noData }) ∧
      (|(nowH * 60 + nowM : ℤ) - sendHour * 60| ≤ 30 → webhook = none →
        dailyEmailTask sendHour nowH nowM webhook fetchOk =
          { built := true, dispatched := false, result := .noData }) := by
  intro sendHour nowH nowM webhook fetchOk
  unfold dailyEmailTask
  by_cases hw : |(nowH * 60 + nowM : ℤ) - sendHour * 60| ≤ 30 <;>
    cases webhook <;>
      simp [hw]

/-- Witness for `dailyEmailTask_spec` at concrete inputs: at 18:00 with
send hour 18 and no webhook the task is a no-op. -/
theorem dailyEmailTask_spec_witness :
    dailyEmailTask 18 18 0 none true =
      { built := true, dispatched := false, result := .noData } :=
  (dailyEmailTask_spec 18 18 0 none true).2.2.2 (by decide) rfl

/-- C6 counterexample: the claim "builds and dispatches iff the local time
is within ±30 minutes of the send hour" fails twice on the code.  At 18:00
with send hour 18 (inside the window by any reading) and no webhook
configured, nothing is dispatched yet the result is the no-op `NoData`;
and at 23:45 with send hour 0, the clock is only 15 minutes before the
send hour on the circular day (`1440 − (23·60+45) = 15 ≤ 30`), yet the
code compares within the same day only and skips the run entirely. -/
theorem dailyEmailTask_counterexample :
    (dailyEmailTask 18 18 0 none true).dispatched = false ∧
    (dailyEmailTask 18 18 0 none true).built = true ∧
    dailyEmailTask 0 23 45 (some "https://hook") true =
      { built := false, dispatched := false, result := .noData } ∧
    (1440 - (23 * 60 + 45) : ℤ) = 15 ∧ (15 : ℤ) ≤ 30 := by
  refine ⟨rfl, rfl, ?_, by norm_num, by norm_num⟩
  decide

/-! ### JSON values, import and export -/

/-- The value trees produced by `JSON.parse` and consumed by
`JSON.stringify`.  An object keeps its fields in order (with duplicate
keys, `JSON.parse` lets the last occurrence win, see `lookupLast`). -/
inductive Json where
  | null
  | bool (b : Bool)
  | num (q : ℚ)
  | str (s : String)
  | arr (elems : List Json)
  | obj (fields : List (String × Json))
deriving Repr

/-- Property access on a parsed JSON object: the last binding of the key
wins, and only object values have (string-keyed) properties. -/
def lookupLast (fields : List (String × Json)) (k : String) : Option Json :=
  match fields with
  | [] => none
  | (k₁, v) :: rest =>
    match lookupLast rest k with
    | some v₂ => some v₂
    | none => if k₁ = k then some v else none

/-- `v[k]` for a parsed JSON value: `undefined` (`none`) unless `v` is an
object holding the key. -/
def getField (v : Json) (k : String) : Option Json :=
  match v with
  | .obj fields => lookupLast fields k
  | _ => none

/-- JS truthiness of a `JSON.parse` result: `null`, `false`, `0` and the
empty string are falsy; every array and object is truthy. -/
def jsTruthy : Json → Bool
  | .null => false
  | .bool b => b
  | .num q => !(q = 0 : Bool)
  | .str s => !(s = "" : Bool)
  | .arr _ => true
  | .obj _ => true

/-- JS truthiness of a possibly-`undefined` value. -/
def jsTruthyOpt : Option Json → Bool
  | none => false
  | some v => jsTruthy v

/-- `typeof v === 'object'` for a `JSON.parse` result: true for objects,
arrays and `null`. -/
def typeofIsObject : Json → Bool
  | .null => true
  | .arr _ => true
  | .obj _ => true
  | _ => false

/-- The error surfaced by the `catch` in `importJSON` via
`Alert.alert('Import failed', ...)`. -/
inductive ImportError where
  | parseFailure
  | notAnObject
  | missingKeys
deriving DecidableEq, Repr

/-- The component state touched by `importJSON`: the selected month, the
targets and associates (as the raw values assigned by `setMonth` /
`setTargets` / `setAssociates` — the code does not validate their shape),
and the import modal's visibility and text field. -/
structure JState where
  month : Json
  targets : Json
  associates : Json
  importVisible : Bool
  importText : String
deriving Repr

/-- `importJSON()` from `src/App.js`, abstracted over the outcome of
`JSON.parse(importText)` (`none` when parsing throws).  The code requires
the parsed value to be truthy and of `typeof 'object'`, then requires
`obj.month && obj.targets && obj.associates` (truthiness, not mere
presence); on success it replaces month, targets and associates wholesale
and closes the modal, otherwise it reports an error and changes nothing. -/
def importJSON (parsed : Option Json) (s : JState) : JState × Option ImportError :=
  match parsed with
  | none => (s, some .parseFailure)
  | some v =>
    if !(jsTruthy v) || !(typeofIsObject v) then
      (s, some .notAnObject)
    else if jsTruthyOpt (getField v "month") && jsTruthyOpt (getField v "targets") &&
        jsTruthyOpt (getField v "associates") then
      ({ month := (getField v "month").getD .null
         targets := (getField v "targets").getD .null
         associates := (getField v "associates").getD .null
         importVisible := false, importText := "" }, none)
    else (s, some .missingKeys)

/-- `JSON.stringify` of a `KpiMap` (five numeric fields in insertion
order). -/
def encodeKpi (t : KpiMap) : Json :=
  .obj [("connects", .num t.connects), ("geoData", .num t.geoData),
        ("buyerAppointments", .num t.buyerAppointments),
        ("marketAppraisals", .num t.marketAppraisals),
        ("listingsGenerated", .num t.listingsGenerated)]

/-- `JSON.stringify` of an associate (`{ id, name, metrics }`). -/
def encodeAssociate (a : Associate) : Json :=
  .obj [("id", .str a.id), ("name", .str a.name), ("metrics", encodeKpi a.metrics)]

/-- The payload `{ month, targets, associates }` built by `exportJSON()` in
`src/App.js` (the function stringifies it and prints it to the console). -/
def exportJSON (month : String) (targets : KpiMap) (associates : List Associate) : Json :=
  .obj [("month", .str month), ("targets", encodeKpi targets),
        ("associates", .arr (associates.map encodeAssociate))]

/-- Read a JSON number back. -/
def asNum : Json → Option ℚ
  | .num q => some q
  | _ => none

/-- Read a JSON string back. -/
def asStr : Json → Option String
  | .str s => some s
  | _ => none

/-- Decode a `KpiMap` from its JSON encoding. -/
def decodeKpi (j : Json) : Option KpiMap := do
  let c ← (getField j "connects").bind asNum
  let g ← (getField j "geoData").bind asNum
  let b ← (getField j "buyerAppointments").bind asNum
  let m ← (getField j "marketAppraisals").bind asNum
  let l ← (getField j "listingsGenerated").bind asNum
  pure { connects := c, geoData := g, buyerAppointments := b
         marketAppraisals := m, listingsGenerated := l }

/-- Decode an associate from its JSON encoding. -/
def decodeAssociate (j : Json) : Option Associate := do
  let i ← (getField j "id").bind asStr
  let n ← (getField j "name").bind asStr
  let mj ← getField j "metrics"
  let m ← decodeKpi mj
  pure { id := i, name := n, metrics := m }

/-- Decode a list of associates element by element. -/
def decodeAssociateList : List Json → Option (List Associate)
  | [] => some []
  | j :: rest => do
    let a ← decodeAssociate j
    let as ← decodeAssociateList rest
    pure (a :: as)

/-- Decode the associates array. -/
def decodeAssociates : Json → Option (List Associate)
  | .arr es => decodeAssociateList es
  | _ => none

/-- A concrete pre-import component state used by the concrete instances
below. -/
def sampleState : JState :=
  { month := .str "2025-08", targets := encodeKpi defaultTargets
    associates := .arr [], importVisible := true, importText := "t" }

/-- C2 (amended): `importJSON` succeeds exactly when the text parses to a
JSON object whose `month`, `targets` and `associates` members are all
present *and truthy* (a present-but-falsy member, such as an empty month
string, is rejected); on success it replaces month, targets and associates
wholesale and closes the import modal, and on any failure it reports an
error and leaves the state unchanged. -/
theorem importJSON_spec :
    ∀ (parsed : Option Json) (s : JState),
      ((importJSON parsed s).2 = none ↔
        ∃ fields, parsed = some (Json.obj fields) ∧
          jsTruthyOpt (getField (Json.obj fields) "month") = true ∧
          jsTruthyOpt (getField (Json.obj fields) "targets") = true ∧
          jsTruthyOpt (getField (Json.obj fields) "associates") = true) ∧
      (∀ v, parsed = some v → (importJSON parsed s).2 = none →
        (importJSON parsed s).1 =
          { month := (getField v "month").getD .null
            targets := (getField v "targets").getD .null
            associates := (getField v "associates").getD .null
            importVisible := false, importText := "" }) ∧
      ((importJSON parsed s).2 ≠ none → (importJSON parsed s).1 = s) := by
  intro parsed s
  cases parsed with
  | none => simp [importJSON]
  | some v =>
    cases v with
    | null => simp [importJSON, jsTruthy, typeofIsObject]
    | bool b => simp [importJSON, typeofIsObject]
    | num q => simp [importJSON, typeofIsObject]
    | str st => simp [importJSON, typeofIsObject]
    | arr es => simp [importJSON, jsTruthy, typeofIsObject, getField, jsTruthyOpt]
    | obj fields =>
      cases hm : jsTruthyOpt (getField (Json.obj fields) "month") <;>
        cases ht : jsTruthyOpt (getField (Json.obj fields) "targets") <;>
          cases ha : jsTruthyOpt (getField (Json.obj fields) "associates") <;>
            simp [importJSON, jsTruthy, typeofIsObject, hm, ht, ha]

/-- Witness for `importJSON_spec`: a well-formed export payload imports
successfully. -/
theorem importJSON_spec_witness :
    (importJSON (some (exportJSON "2025-09" defaultTargets [])) sampleState).2 = none :=
  ((importJSON_spec (some (exportJSON "2025-09" defaultTargets [])) sampleState).1).mpr
    ⟨[("month", .str "2025-09"), ("targets", encodeKpi defaultTargets),
      ("associates", .arr [])], rfl, rfl, rfl, rfl⟩

/-- An import text whose parse has all three required keys present, but
with a falsy `month` (the empty string). -/
def presentFalsyImport : Json :=
  .obj [("month", .str ""), ("targets", encodeKpi defaultTargets),
        ("associates", .arr [])]

/-- C2 counterexample: the claim says presence of the three keys suffices,
but `importJSON` tests truthiness: on a parsed object with all three keys
present and `month` equal to the empty string, the import fails and the
state is left unchanged. -/
theorem importJSON_counterexample :
    (getField presentFalsyImport "month").isSome = true ∧
    (getField presentFalsyImport "targets").isSome = true ∧
    (getField presentFalsyImport "associates").isSome = true ∧
    importJSON (some presentFalsyImport) sampleState = (sampleState, some .missingKeys) :=
  ⟨rfl, rfl, rfl, rfl⟩

/-- C3 (amended): for every `MonthState` whose month string is non-empty,
importing the exported payload succeeds, replaces the state with exactly
the exported month, targets and associates, and those values decode back
to the original `MonthState` (the round trip is the identity).  The month
restriction is forced: an empty month string is falsy and rejected by
`importJSON` (see the counterexample). -/
theorem exportJSON_roundtrip :
    ∀ (m : String) (t : KpiMap) (as : List Associate) (s : JState), m ≠ "" →
      importJSON (some (exportJSON m t as)) s =
        ({ month := .str m, targets := encodeKpi t
           associates := .arr (as.map encodeAssociate)
           importVisible := false, importText := "" }, none) ∧
      decodeKpi (encodeKpi t) = some t ∧
      decodeAssociates (.arr (as.map encodeAssociate)) = some as := by
  intro m t as s hm
  refine ⟨?_, rfl, ?_⟩
  · have h1 : getField (exportJSON m t as) "month" = some (.str m) := rfl
    have h2 : getField (exportJSON m t as) "targets" = some (encodeKpi t) := rfl
    have h3 : getField (exportJSON m t as) "associates" =
        some (.arr (as.map encodeAssociate)) := rfl
    have hA : (!(jsTruthy (exportJSON m t as)) || !(typeofIsObject (exportJSON m t as))) = false := rfl
    have hmm : jsTruthyOpt (getField (exportJSON m t as) "month") = true := by
      rw [h1]
      simp [jsTruthyOpt, jsTruthy, hm]
    have hmt : jsTruthyOpt (getField (exportJSON m t as) "targets") = true := rfl
    have hma : jsTruthyOpt (getField (exportJSON m t as) "associates") = true := rfl
    simp [importJSON, hA, hmm, hmt, hma, h1, h2, h3]
    exact ⟨by simp [jsTruthyOpt, jsTruthy, hm], rfl, rfl⟩
  · induction as with
    | nil => rfl
    | cons a rest ih =>
      have ha : decodeAssociate (encodeAssociate a) = some a := rfl
      have ih' : decodeAssociateList (rest.map encodeAssociate) = some rest := ih
      simp [decodeAssociates, List.map_cons, decodeAssociateList, ha, ih']

/-- Witness for `exportJSON_roundtrip` at a concrete `MonthState`. -/
theorem exportJSON_roundtrip_witness :
    decodeAssociates
        ((importJSON (some (exportJSON "2025-09" defaultTargets
            [{ id := "i1", name := "Alex", metrics := defaultTargets }])) sampleState).1.associates) =
      some [{ id := "i1", name := "Alex", metrics := defaultTargets }] := by
  have h := exportJSON_roundtrip "2025-09" defaultTargets
    [{ id := "i1", name := "Alex", metrics := defaultTargets }] sampleState (by decide)
  rw [h.1]
  exact h.2.2

/-- C3 counterexample: a `MonthState` whose month is the empty string does
not survive the round trip — the import of its own export fails and leaves
the previous state (with a different month) in place. -/
theorem exportJSON_roundtrip_counterexample :
    importJSON (some (exportJSON "" defaultTargets [])) sampleState =
      (sampleState, some .missingKeys) ∧
    sampleState.month ≠ Json.str "" := by
  refine ⟨rfl, ?_⟩
  have h : sampleState.month = Json.str "2025-08" := rfl
  rw [h]
  intro hc
  injection hc with hs
  exact absurd hs (by decide)

/-! ### State mutators: `addAssociate`, `updateMetric`, `deleteAssociate` -/

/-- The all-zero metrics object given to a new associate. -/
def zeroMetrics : KpiMap :=
  { connects := 0, geoData := 0, buyerAppointments := 0
    marketAppraisals := 0, listingsGenerated := 0 }

/-- JS `String.prototype.trim()`: drop leading and trailing whitespace. -/
def jsTrim (s : String) : String :=
  ((s.data.dropWhile Char.isWhitespace).reverse.dropWhile Char.isWhitespace).reverse.asString

/-- `addAssociate()` from `src/App.js`, abstracted over the fresh id from
`genId()`: a blank (all-whitespace) name is a no-op, otherwise the new
associate is appended with the trimmed name and all five metrics zero. -/
def addAssociate (newName fresh : String) (prev : List Associate) : List Associate :=
  if jsTrim newName = "" then prev
  else prev ++ [{ id := fresh, name := jsTrim newName, metrics := zeroMetrics }]

/-- Functional update of one metric (the spread `{ ...a.metrics, [key]: v }`). -/
def KpiMap.set (m : KpiMap) (k : Metric) (v : ℚ) : KpiMap :=
  match k with
  | .connects => { m with connects := v }
  | .geoData => { m with geoData := v }
  | .buyerAppointments => { m with buyerAppointments := v }
  | .marketAppraisals => { m with marketAppraisals := v }
  | .listingsGenerated => { m with listingsGenerated := v }

/-- `updateMetric(id, key, value)` from `src/App.js`.  The `Option ℚ`
argument is the outcome of `Number(value)` on the text field (`none` for
`NaN`); a `NaN` or negative value returns without touching the state,
otherwise the matching associate's metric is replaced. -/
def updateMetric (id : String) (key : Metric) (v : Option ℚ)
    (prev : List Associate) : List Associate :=
  match v with
  | none => prev
  | some q =>
    if q < 0 then prev
    else prev.map (fun a => if a.id = id then { a with metrics := a.metrics.set key q } else a)

/-- `deleteAssociate(id)` from `src/App.js`. -/
def deleteAssociate (id : String) (prev : List Associate) : List Associate :=
  prev.filter (fun a => !(a.id = id : Bool))

/-- All five metrics of an associate are non-negative. -/
def MetricsNonneg (a : Associate) : Prop := ∀ k : Metric, 0 ≤ a.metrics.get k

/-- Reading a metric after a functional update. -/
theorem KpiMap.get_set (m : KpiMap) (k k' : Metric) (v : ℚ) :
    (m.set k v).get k' = if k' = k then v else m.get k' := by
  cases k <;> cases k' <;> simp [KpiMap.set, KpiMap.get]

/-- C10 (amended): `addAssociate` appends an associate with all five
metrics zero (trimmed non-blank name required), `updateMetric` is a silent
no-op on a `NaN` or negative value, and the three interactive mutators
`addAssociate`, `updateMetric` and `deleteAssociate` all preserve metric
non-negativity.  (The blanket "every state-mutating operation" of the
original claim fails: `importJSON` validates nothing and can store
negative metrics — see the counterexample.) -/
theorem mutators_preserve_nonneg :
    (∀ (nm fresh : String) (prev : List Associate), jsTrim nm ≠ "" →
      addAssociate nm fresh prev =
        prev ++ [{ id := fresh, name := jsTrim nm, metrics := zeroMetrics }]) ∧
    (∀ k : Metric, zeroMetrics.get k = 0) ∧
    (∀ (id : String) (k : Metric) (prev : List Associate),
      updateMetric id k none prev = prev) ∧
    (∀ (id : String) (k : Metric) (q : ℚ) (prev : List Associate), q < 0 →
      updateMetric id k (some q) prev = prev) ∧
    (∀ (nm fresh : String) (prev : List Associate),
      (∀ a ∈ prev, MetricsNonneg a) → ∀ a ∈ addAssociate nm fresh prev, MetricsNonneg a) ∧
    (∀ (id : String) (k : Metric) (v : Option ℚ) (prev : List Associate),
      (∀ a ∈ prev, MetricsNonneg a) → ∀ a ∈ updateMetric id k v prev, MetricsNonneg a) ∧
    (∀ (id : String) (prev : List Associate),
      (∀ a ∈ prev, MetricsNonneg a) → ∀ a ∈ deleteAssociate id prev, MetricsNonneg a) := by
  have hzero : ∀ k : Metric, zeroMetrics.get k = 0 := by
    intro k
    cases k <;> rfl
  refine ⟨?_, hzero, fun id k prev => rfl, ?_, ?_, ?_, ?_⟩
  · intro nm fresh prev h
    simp [addAssociate, h]
  · intro id k q prev h
    simp [updateMetric, h]
  · intro nm fresh prev hprev a ha
    unfold addAssociate at ha
    split at ha
    · exact hprev a ha
    · rcases List.mem_append.mp ha with h | h
      · exact hprev a h
      · have : a = { id := fresh, name := jsTrim nm, metrics := zeroMetrics } :=
          List.mem_singleton.mp h
        intro k
        rw [this]
        exact le_of_eq (hzero k).symm
  · intro id k v prev hprev a ha
    cases v with
    | none => exact hprev a ha
    | some q =>
      by_cases hq : q < 0
      case pos =>
        rw [show updateMetric id k (some q) prev = prev from by simp [updateMetric, hq]] at ha
        exact hprev a ha
      case neg =>
        have ha2 : a ∈ prev.map
            (fun b => if b.id = id then { b with metrics := b.metrics.set k q } else b) := by
          simpa [updateMetric, hq] using ha
        rcases List.mem_map.mp ha2 with ⟨b, hb, hab⟩
        intro k'
        by_cases hid : b.id = id
        · rw [← hab]
          simp only [hid, if_true]
          show (0 : ℚ) ≤ (b.metrics.set k q).get k'
          rw [KpiMap.get_set]
          by_cases hk : k' = k
          · simpa [hk] using not_lt.mp hq
          · simpa [hk] using hprev b hb k'
        · rw [← hab]
          simp only [hid, if_false]
          exact hprev b hb k'
  · intro id prev hprev a ha
    exact hprev a (List.mem_of_mem_filter ha)

/-- Witness for `mutators_preserve_nonneg` at concrete inputs. -/
theorem mutators_preserve_nonneg_witness :
    updateMetric "a" .connects (some (-1)) [] = [] ∧
    addAssociate "Bo" "i9" [] = [{ id := "i9", name := "Bo", metrics := zeroMetrics }] := by
  constructor
  · exact mutators_preserve_nonneg.2.2.2.1 "a" .connects (-1) [] (by norm_num)
  · have htrim : jsTrim "Bo" = "Bo" := by decide
    have h := mutators_preserve_nonneg.1 "Bo" "i9" [] (by rw [htrim]; decide)
    rw [htrim] at h
    simpa using h

/-- The export of a month whose single associate carries a negative
`connects` value. -/
def negativeImportPayload : Json :=
  exportJSON "2025-09" defaultTargets
    [{ id := "a1", name := "Al"
       metrics := { connects := -5, geoData := 0, buyerAppointments := 0
                    marketAppraisals := 0, listingsGenerated := 0 } }]

/-- C10 counterexample: `importJSON` is a state-mutating operation that
accepts this payload and stores an associate whose `connects` metric is
`-5`, so not every state-mutating operation preserves metric
non-negativity. -/
theorem negative_metric_via_import :
    (importJSON (some negativeImportPayload) sampleState).2 = none ∧
    decodeAssociates ((importJSON (some negativeImportPayload) sampleState).1.associates) =
      some [{ id := "a1", name := "Al"
              metrics := { connects := -5, geoData := 0, buyerAppointments := 0
                           marketAppraisals := 0, listingsGenerated := 0 } }] ∧
    ({ connects := -5, geoData := 0, buyerAppointments := 0
       marketAppraisals := 0, listingsGenerated := 0 } : KpiMap).get .connects < 0 := by
  refine ⟨rfl, rfl, by norm_num [KpiMap.get]⟩

/-! ### `genId` -/

/-- The environment observed by one call of `genId()`: whether
`globalThis.crypto?.randomUUID` exists, the UUID it would return, the
random base-36 suffix `Math.random().toString(36).slice(2, 10)` would
produce, and the `Date.now()` timestamp. -/
structure GenEnv where
  cryptoAvailable : Bool
  uuid : String
  rand : String
  now : ℕ
deriving Repr

/-- `genId()` from `src/App.js`: the crypto UUID when available, otherwise
the template literal `id-${rand}-${Date.now()}`. -/
def genId (e : GenEnv) : String :=
  if e.cryptoAvailable then e.uuid
  else "id-" ++ e.rand ++ "-" ++ Nat.repr e.now

/-- `Nat.digitChar` never yields a dash. -/
theorem digitChar_ne_dash : ∀ n : ℕ, Nat.digitChar n ≠ '-' := by
  intro n
  by_cases h : n < 16
  · exact (by decide : ∀ m : ℕ, m < 16 → Nat.digitChar m ≠ '-') n h
  · unfold Nat.digitChar
    repeat rw [if_neg (by omega)]
    decide

/-- `Nat.toDigitsCore` adds no dash to a dash-free accumulator. -/
theorem dash_not_mem_toDigitsCore :
    ∀ (fuel b n : ℕ) (ds : List Char), '-' ∉ ds → '-' ∉ Nat.toDigitsCore b fuel n ds := by
  intro fuel
  induction fuel with
  | zero =>
    intro b n ds h
    simpa [Nat.toDigitsCore] using h
  | succ fuel ih =>
    intro b n ds h
    have hcons : '-' ∉ Nat.digitChar (n % b) :: ds := by
      intro hmem
      rcases List.mem_cons.mp hmem with he | he
      · exact digitChar_ne_dash (n % b) he.symm
      · exact h he
    simp only [Nat.toDigitsCore]
    split
    · exact hcons
    · exact ih b (n / b) (Nat.digitChar (n % b) :: ds) hcons

/-- The decimal representation of a natural number contains no dash. -/
theorem dash_not_mem_repr (n : ℕ) : '-' ∉ (Nat.repr n).data :=
  dash_not_mem_toDigitsCore (n + 1) 10 n [] (by simp)

/-- `Nat.toDigitsCore` is the accumulator-free digits followed by the
accumulator. -/
theorem toDigitsCore_append :
    ∀ (fuel b n : ℕ) (ds : List Char),
      Nat.toDigitsCore b fuel n ds = Nat.toDigitsCore b fuel n [] ++ ds := by
  intro fuel
  induction fuel with
  | zero => intro b n ds; simp [Nat.toDigitsCore]
  | succ fuel ih =>
    intro b n ds
    simp only [Nat.toDigitsCore]
    split
    · simp
    · rw [ih b (n / b) (Nat.digitChar (n % b) :: ds), ih b (n / b) [Nat.digitChar (n % b)]]
      simp

/-- The numeric value of a decimal digit character. -/
def digitVal (c : Char) : ℕ := c.toNat - 48

/-- Evaluate a decimal digit string back to a natural number. -/
def evalDec (l : List Char) : ℕ := l.foldl (fun a c => 10 * a + digitVal c) 0

/-- Evaluating one more trailing digit. -/
theorem evalDec_append_singleton (xs : List Char) (c : Char) :
    evalDec (xs ++ [c]) = 10 * evalDec xs + digitVal c := by
  simp [evalDec, List.foldl_append]

/-- `digitVal` inverts `Nat.digitChar` on decimal digits. -/
theorem digitVal_digitChar : ∀ m : ℕ, m < 10 → digitVal (Nat.digitChar m) = m := by
  decide

/-- Evaluating the digits of `n` recovers `n`. -/
theorem evalDec_toDigitsCore :
    ∀ (fuel n : ℕ), n < fuel → evalDec (Nat.toDigitsCore 10 fuel n []) = n := by
  intro fuel
  induction fuel with
  | zero => intro n h; omega
  | succ fuel ih =>
    intro n h
    simp only [Nat.toDigitsCore]
    split
    case isTrue hz =>
      have hn : n < 10 := (Nat.div_eq_zero_iff (by norm_num)).mp hz
      have : evalDec [Nat.digitChar (n % 10)] = n % 10 := by
        simpa [evalDec] using digitVal_digitChar (n % 10) (Nat.mod_lt n (by norm_num))
      rw [this]
      omega
    case isFalse hz =>
      have hpos : 0 < n := by
        rcases Nat.eq_zero_or_pos n with h0 | h0
        · exact absurd (by simp [h0]) hz
        · exact h0
      have hlt : n / 10 < fuel := lt_of_lt_of_le (Nat.div_lt_self hpos (by norm_num)) (by omega)
      rw [toDigitsCore_append fuel 10 (n / 10) [Nat.digitChar (n % 10)],
        evalDec_append_singleton, ih (n / 10) hlt,
        digitVal_digitChar (n % 10) (Nat.mod_lt n (by norm_num))]
      omega

/-- Decimal printing of naturals is injective. -/
theorem natRepr_inj : ∀ m n : ℕ, Nat.repr m = Nat.repr n → m = n := by
  intro m n h
  have hd : Nat.toDigits 10 m = Nat.toDigits 10 n := congrArg String.data h
  have e1 : evalDec (Nat.toDigitsCore 10 (m + 1) m []) = m :=
    evalDec_toDigitsCore (m + 1) m (Nat.lt_succ_self m)
  have e2 : evalDec (Nat.toDigitsCore 10 (n + 1) n []) = n :=
    evalDec_toDigitsCore (n + 1) n (Nat.lt_succ_self n)
  have hd' : Nat.toDigitsCore 10 (m + 1) m [] = Nat.toDigitsCore 10 (n + 1) n [] := hd
  rw [hd', e2] at e1
  exact e1.symm

/-- Splitting a dash-separated concatenation whose left parts are
dash-free is unambiguous. -/
theorem append_dash_inj :
    ∀ (r₁ r₂ d₁ d₂ : List Char), '-' ∉ r₁ → '-' ∉ r₂ →
      r₁ ++ '-' :: d₁ = r₂ ++ '-' :: d₂ → r₁ = r₂ ∧ d₁ = d₂ := by
  intro r₁
  induction r₁ with
  | nil =>
    intro r₂ d₁ d₂ h1 h2 heq
    cases r₂ with
    | nil =>
      refine ⟨rfl, ?_⟩
      simpa using heq
    | cons c r₂ =>
      exfalso
      have hc : c = '-' := by
        have := congrArg (fun l => l.headD ' ') heq
        simpa using this.symm
      exact h2 (by simp [hc])
  | cons c₁ r₁ ih =>
    intro r₂ d₁ d₂ h1 h2 heq
    cases r₂ with
    | nil =>
      exfalso
      have hc : c₁ = '-' := by
        have := congrArg (fun l => l.headD ' ') heq
        simpa using this
      exact h1 (by simp [hc])
    | cons c₂ r₂ =>
      simp only [List.cons_append, List.cons.injEq] at heq
      have h1' : '-' ∉ r₁ := fun hh => h1 (List.mem_cons_of_mem _ hh)
      have h2' : '-' ∉ r₂ := fun hh => h2 (List.mem_cons_of_mem _ hh)
      rcases ih r₂ d₁ d₂ h1' h2' heq.2 with ⟨hr, hdd⟩
      exact ⟨by rw [heq.1, hr], hdd⟩

/-- Strings with equal character data are equal. -/
theorem stringData_inj : ∀ s₁ s₂ : String, s₁.data = s₂.data → s₁ = s₂ := by
  intro s₁ s₂ h
  cases s₁
  cases s₂
  exact congrArg String.mk h

/-- C9 (amended): in the fallback branch every identifier starts with the
fixed literal prefix `id-`, and two fallback identifiers are distinct
whenever their random-suffix/timestamp outcomes differ (the base-36 suffix
contains no dash); in the crypto branch `genId` returns the generator's
UUID verbatim, so distinctness and prefix shape are inherited from the
generator rather than guaranteed by `genId`. -/
theorem genId_spec :
    ∀ e₁ e₂ : GenEnv,
      (e₁.cryptoAvailable = false → ∃ rest : String, genId e₁ = "id-" ++ rest) ∧
      (e₁.cryptoAvailable = true → genId e₁ = e₁.uuid) ∧
      (e₁.cryptoAvailable = false → e₂.cryptoAvailable = false →
        '-' ∉ e₁.rand.data → '-' ∉ e₂.rand.data →
        (e₁.rand ≠ e₂.rand ∨ e₁.now ≠ e₂.now) →
        genId e₁ ≠ genId e₂) := by
  intro e₁ e₂
  refine ⟨?_, ?_, ?_⟩
  · intro h
    refine ⟨e₁.rand ++ "-" ++ Nat.repr e₁.now, ?_⟩
    simp [genId, h, String.append_assoc]
  · intro h
    simp [genId, h]
  · intro h1 h2 hr1 hr2 hne heq
    rw [genId, genId, if_neg (by simp [h1]), if_neg (by simp [h2])] at heq
    have hd := congrArg String.data heq
    simp only [String.data_append] at hd
    have hd' : e₁.rand.data ++ '-' :: (Nat.repr e₁.now).data =
        e₂.rand.data ++ '-' :: (Nat.repr e₂.now).data := by
      simp only [List.append_assoc, List.singleton_append, List.cons_append,
        List.nil_append, List.cons.injEq, true_and] at hd
      simpa using hd
    rcases append_dash_inj e₁.rand.data e₂.rand.data (Nat.repr e₁.now).data
      (Nat.repr e₂.now).data hr1 hr2 hd' with ⟨hr, hn⟩
    rcases hne with hne | hne
    · exact hne (stringData_inj _ _ hr)
    · exact hne (natRepr_inj _ _ (stringData_inj _ _ hn))

/-- Witness for `genId_spec`: two fallback environments with different
random suffixes give distinct identifiers. -/
theorem genId_spec_witness :
    genId { cryptoAvailable := false, uuid := "u", rand := "abc", now := 12 } ≠
      genId { cryptoAvailable := false, uuid := "u", rand := "abd", now := 12 } :=
  (genId_spec { cryptoAvailable := false, uuid := "u", rand := "abc", now := 12 }
      { cryptoAvailable := false, uuid := "u", rand := "abd", now := 12 }).2.2
    rfl rfl (by decide) (by decide) (Or.inl (by decide))

/-- C9 counterexample: with the crypto generator available, `genId`
returns the generator's UUID verbatim, so two consecutive calls whose
environment happens to produce the same UUID return equal identifiers,
and a crypto-branch identifier does not carry the `id-` prefix that every
fallback identifier carries. -/
theorem genId_counterexample :
    genId { cryptoAvailable := true, uuid := "u1", rand := "ra", now := 5 } =
      genId { cryptoAvailable := true, uuid := "u1", rand := "rb", now := 7 } ∧
    (genId { cryptoAvailable := true, uuid := "u1", rand := "ra", now := 5 }).data.take 3 ≠
      ['i', 'd', '-'] ∧
    genId { cryptoAvailable := false, uuid := "u1", rand := "ra", now := 5 } = "id-ra-5" := by
  refine ⟨rfl, by decide, by decide⟩

/-! ### The leaderboard -/

/-- One leaderboard item (`{ id, name, listings, progress }`). -/
structure LEntry where
  id : String
  name : String
  listings : ℚ
  progress : ℚ
deriving DecidableEq, Repr

/-- The item built for one associate by the `leaderboard` memo:
`progress` is the reduce over `Object.keys(KPI_LABELS)` of
`pct(a.metrics[k] || 0, targets[k])` divided by the number of keys, and
`listings` is `a.metrics.listingsGenerated || 0`. -/
def entryOf (targets : KpiMap) (a : Associate) : LEntry :=
  { id := a.id, name := a.name
    listings := a.metrics.listingsGenerated
    progress :=
      (metricKeys.foldl (fun acc k => acc + pct (a.metrics.get k) (some (targets.get k))) 0) /
        (metricKeys.length : ℚ) }

/-- The JS comparator `(a, b) => b.listings - a.listings || b.progress - a.progress`
as the "may come first" relation: `cmp a b ≤ 0`. -/
def lbBefore (a b : LEntry) : Prop :=
  b.listings < a.listings ∨ (b.listings = a.listings ∧ b.progress ≤ a.progress)

instance : DecidableRel lbBefore := fun x y =>
  inferInstanceAs (Decidable
    (y.listings < x.listings ∨ (y.listings = x.listings ∧ y.progress ≤ x.progress)))

instance : IsTotal LEntry lbBefore := by
  constructor
  intro a b
  rcases lt_trichotomy a.listings b.listings with h | h | h
  · exact Or.inr (Or.inl h)
  · rcases le_total b.progress a.progress with hp | hp
    · exact Or.inl (Or.inr ⟨h.symm, hp⟩)
    · exact Or.inr (Or.inr ⟨h, hp⟩)
  · exact Or.inl (Or.inl h)

instance : IsTrans LEntry lbBefore := by
  constructor
  intro a b c hab hbc
  rcases hab with h1 | ⟨h1, h1p⟩ <;> rcases hbc with h2 | ⟨h2, h2p⟩
  · exact Or.inl (lt_trans h2 h1)
  · exact Or.inl (h2 ▸ h1)
  · exact Or.inl (h1 ▸ h2)
  · exact Or.inr ⟨h2.trans h1, h2p.trans h1p⟩

/-- The `leaderboard` memo from `src/App.js`: map each associate to its
item, sort with the comparator (JS `Array.prototype.sort` is stable; with
a total transitive comparator its output is the stable sort, modelled by
`List.insertionSort`), and keep the first five. -/
def leaderboard (associates : List Associate) (targets : KpiMap) : List LEntry :=
  (List.insertionSort lbBefore (associates.map (entryOf targets))).take 5

/-- C5: each associate's progress is the average of the five
`pct(metric, target)` values and its listings field is the raw
`listingsGenerated`; the leaderboard is the 5-element prefix of a list
that is a permutation of the items, sorted descending by listings and then
by progress, with items equal on both keys kept in their original relative
order (stability, stated via `filter`); its length is `min 5` the number
of associates. -/
theorem leaderboard_spec :
    ∀ (associates : List Associate) (targets : KpiMap),
      (∀ a ∈ associates,
        (entryOf targets a).progress =
          (pct a.metrics.connects (some targets.connects) +
           pct a.metrics.geoData (some targets.geoData) +
           pct a.metrics.buyerAppointments (some targets.buyerAppointments) +
           pct a.metrics.marketAppraisals (some targets.marketAppraisals) +
           pct a.metrics.listingsGenerated (some targets.listingsGenerated)) / 5 ∧
        (entryOf targets a).listings = a.metrics.listingsGenerated) ∧
      (∃ sorted : List LEntry,
        List.Perm sorted (associates.map (entryOf targets)) ∧
        List.Sorted lbBefore sorted ∧
        (∀ L P : ℚ,
          sorted.filter (fun e => decide (e.listings = L) && decide (e.progress = P)) =
            (associates.map (entryOf targets)).filter
              (fun e => decide (e.listings = L) && decide (e.progress = P))) ∧
        leaderboard associates targets = sorted.take 5) ∧
      (leaderboard associates targets).length = min 5 associates.length := by
  intro associates targets
  refine ⟨?_, ?_, ?_⟩
  · intro a ha
    constructor
    · simp [entryOf, metricKeys, KpiMap.get]
    · rfl
  · refine ⟨List.insertionSort lbBefore (associates.map (entryOf targets)),
      List.perm_insertionSort lbBefore _, List.sorted_insertionSort lbBefore _, ?_, rfl⟩
    intro L P
    set entries := associates.map (entryOf targets) with hentries
    set p : LEntry → Bool := fun e => decide (e.listings = L) && decide (e.progress = P)
      with hp
    have hpair : (entries.filter p).Pairwise lbBefore := by
      apply List.pairwise_of_forall_mem_list
      intro x hx y hy
      have hx' := (List.mem_filter.mp hx).2
      have hy' := (List.mem_filter.mp hy).2
      rw [hp] at hx' hy'
      simp only [Bool.and_eq_true, decide_eq_true_eq] at hx' hy'
      exact Or.inr ⟨hy'.1.trans hx'.1.symm, le_of_eq (hy'.2.trans hx'.2.symm)⟩
    have hsub : List.Sublist (entries.filter p) (List.insertionSort lbBefore entries) :=
      List.sublist_insertionSort hpair (List.filter_sublist entries)
    have hfil : (entries.filter p).filter p = entries.filter p :=
      List.filter_eq_self.mpr (fun a ha => (List.mem_filter.mp ha).2)
    have hsub2 : List.Sublist (entries.filter p)
        ((List.insertionSort lbBefore entries).filter p) := by
      have h5 := List.Sublist.filter p hsub
      rwa [hfil] at h5
    have hperm2 : List.Perm ((List.insertionSort lbBefore entries).filter p)
        (entries.filter p) :=
      (List.perm_insertionSort lbBefore entries).filter p
    exact (hsub2.eq_of_length hperm2.length_eq.symm).symm
  · rw [leaderboard, List.length_take, List.length_insertionSort, List.length_map]

/-- Witness for `leaderboard_spec` at a concrete associate list. -/
theorem leaderboard_spec_witness :
    (entryOf defaultTargets { id := "a", name := "Alex", metrics := zeroMetrics }).listings =
      ({ id := "a", name := "Alex", metrics := zeroMetrics } : Associate).metrics.listingsGenerated :=
  ((leaderboard_spec [{ id := "a", name := "Alex", metrics := zeroMetrics }] defaultTargets).1
    { id := "a", name := "Alex", metrics := zeroMetrics } (by simp)).2
